import Mathlib

/-!
Verification of the media composition and encode-fallback pipeline of the
Yt-shorts repository (files `image_video_maker.py` and
`portrait_to_landscape_pro_rewrite.py`), via a shallow embedding of the
relevant functions.

Conventions of the embedding:
* Python machine floats used for aspect ratios and blend factors are modelled
  by exact rationals (`ℚ`); Python `int(x)` on a nonnegative value is `⌊x⌋₊`,
  and numpy `astype("uint8")` on a nonnegative in-range value is also `⌊x⌋₊`
  (truncation toward zero).
* A decoded image is represented by its pixel dimensions `(width, height)`;
  an unreadable catalog item is `none` (the `pil = None` placeholder the code
  stores when `Image.open` raises).
* Subprocess invocations (ffmpeg) and filesystem moves are modelled by their
  success booleans and their captured diagnostic strings; the control flow
  around them is translated exactly.
-/

namespace ImageVideoMaker

/-- A decoded image, reduced to its pixel dimensions `(width, height)`. -/
abbrev Img := Nat × Nat

/-- A catalog entry as preloaded by `create_slideshow_thread` lines 174-181:
`some` of the decoded image, or `none` when `Image.open` raised. -/
abbrev Catalog := List (Option Img)

/-- Resampling filter passed to `PIL.Image.resize`. -/
inductive Resample where
  | lanczos
  | nearest
deriving DecidableEq, Repr

/-- A crop rectangle `(left, top, width, height)` as passed to `pil_img.crop`. -/
structure CropBox where
  left : Nat
  top : Nat
  w : Nat
  h : Nat
deriving DecidableEq, Repr

/-- Embedding of `zoom_crop_and_resize` (image_video_maker.py lines 101-122):
compares `src_ratio = iw/ih` with `target_ratio = tw/th` (exact rationals in
place of Python floats); if the source is relatively wider it keeps full
height and crops the width to `int(ih * target_ratio)` centered horizontally,
otherwise it keeps full width and crops the height to `int(iw / target_ratio)`
centered vertically; the crop is then resized to `(tw, th)` with LANCZOS
resampling.  Returns the crop box, the resize dimensions and the filter. -/
def zoom_crop_and_resize (iw ih tw th : Nat) : CropBox × (Nat × Nat) × Resample :=
  let targetAspect : ℚ := (tw : ℚ) / (th : ℚ)
  let srcAspect : ℚ := (iw : ℚ) / (ih : ℚ)
  if targetAspect < srcAspect then
    let new_w : Nat := ⌊(ih : ℚ) * targetAspect⌋₊
    (⟨(iw - new_w) / 2, 0, new_w, ih⟩, (tw, th), Resample.lanczos)
  else
    let new_h : Nat := ⌊(iw : ℚ) / targetAspect⌋₊
    (⟨0, (ih - new_h) / 2, iw, new_h⟩, (tw, th), Resample.lanczos)

/-- Per-pixel cross-fade as performed at line 220:
`(curr * (1 - alpha) + next * alpha).astype("uint8")`.  The float32
arithmetic is modelled by exact rationals; `astype("uint8")` truncates
toward zero, which for the nonnegative convex combination is `⌊·⌋₊`. -/
def blendPixel (a b : Nat) (alpha : ℚ) : Nat :=
  ⌊(a : ℚ) * (1 - alpha) + (b : ℚ) * alpha⌋₊

/-- The blend operation as the spec words it (`round(frameA*(1-alpha) +
frameB*alpha)`), for comparison with `blendPixel`.  Modelled from the spec's
formula, not from the code. -/
def roundBlendSpec (a b : Nat) (alpha : ℚ) : Nat :=
  (round ((a : ℚ) * (1 - alpha) + (b : ℚ) * alpha)).toNat

/-- Blend factor of crossfade frame `f` (line 219):
`alpha = (f + 1) / max(1, crossfade_frames)`. -/
def crossfadeAlpha (cf f : Nat) : ℚ :=
  ((f : ℚ) + 1) / (max 1 cf : Nat)

/-- `stable_frames` as computed at lines 205-207: the Python expression
`frames_per_image - crossfade_frames` (an `int`, possibly negative, hence
`ℤ` here) followed by the explicit clamp `if stable_frames < 0: 0`. -/
def stable_framesI (F C : Nat) : ℤ :=
  if (F : ℤ) - (C : ℤ) < 0 then 0 else (F : ℤ) - (C : ℤ)

/-- The clamped stable-frame count as a loop bound. -/
def stableCount (F C : Nat) : Nat := (stable_framesI F C).toNat

/-- The frame a crossfade blends toward (lines 197-202): the zoom-crop of
item `idx+1` when it exists and decoded, otherwise `np.zeros_like(curr_bgr)`
— a solid black frame with the dimensions of the current (target-sized)
frame. -/
inductive FrameBuf where
  | itemFrame (srcIdx : Nat) (w h : Nat)
  | black (w h : Nat)
deriving DecidableEq, Repr

/-- Selection of `next_bgr` for item `idx` (lines 197-202), given the target
dimensions `(tw, th)` that every composed frame has. -/
def nextFrameBuf (imgs : Catalog) (tw th idx : Nat) : FrameBuf :=
  match imgs.get? (idx + 1) with
  | some (some _) => FrameBuf.itemFrame (idx + 1) tw th
  | _ => FrameBuf.black tw th

/-- One frame written to the `VideoWriter`: a stable copy of item `idx`'s
fitted frame, or crossfade frame number `f` of item `idx` toward `next`. -/
inductive FrameEmit where
  | stable (idx : Nat)
  | fade (idx : Nat) (next : FrameBuf) (f : Nat)
deriving DecidableEq, Repr

/-- The frames written for item `idx` (loop body, lines 184-225): nothing if
the item failed to decode (lines 186-191), otherwise `stableCount` stable
frames followed by `crossfade_frames` blended frames. -/
def renderItem (imgs : Catalog) (tw th F C idx : Nat) : List FrameEmit :=
  match imgs.get? idx with
  | some (some _) =>
      List.replicate (stableCount F C) (FrameEmit.stable idx)
        ++ (List.range C).map (fun f => FrameEmit.fade idx (nextFrameBuf imgs tw th idx) f)
  | _ => []

/-- All frames written across the whole catalog (the `for idx in
range(total_images)` loop). -/
def emittedFrames (imgs : Catalog) (tw th F C : Nat) : List FrameEmit :=
  ((List.range imgs.length).map (renderItem imgs tw th F C)).flatten

/-- How much `frames_written` advances for item `idx`: `frames_per_image`
when the item is skipped as unreadable (line 188), and one per written frame
otherwise (lines 212, 222). -/
def counterAdvance (imgs : Catalog) (F C idx : Nat) : Nat :=
  match imgs.get? idx with
  | some (some _) => stableCount F C + C
  | _ => F

/-- Final value of the `frames_written` counter after the render loop. -/
def finalCounter (imgs : Catalog) (F C : Nat) : Nat :=
  ((List.range imgs.length).map (counterAdvance imgs F C)).sum

/-- Whether the catalog item at `idx` decoded successfully. -/
def isReadable (imgs : Catalog) (idx : Nat) : Bool :=
  match imgs.get? idx with
  | some (some _) => true
  | _ => false

/-- Number of successfully decoded items in the catalog. -/
def readableCount (imgs : Catalog) : Nat :=
  (List.range imgs.length).countP (isReadable imgs)

/-- Failure messages reported through `on_done(False, ...)`. -/
inductive SlideMsg where
  | noImagesFound
  | errorDuringGeneration
deriving DecidableEq, Repr

/-- Outcome of one slideshow render job, up to the release of the writer:
`fail` carries the number of frames emitted before the abort and the message
class handed to `on_done(False, ...)`; `ok` carries the emitted frames and
the final `frames_written` counter. -/
inductive SlideOutcome where
  | fail (framesEmitted : Nat) (msg : SlideMsg)
  | ok (emitted : List FrameEmit) (counter : Nat)
deriving DecidableEq, Repr

/-- Embedding of the front part of `create_slideshow_thread`
(lines 134-227): an empty catalog fails with "No images found" (line 138);
otherwise the first image is opened unconditionally (line 145) to resolve the
target resolution — if that decode raises, the enclosing handler (lines
280-285) reports failure before any frame is rendered; otherwise the target
is the `resolution` argument, or the first image's size when it is `None`,
and the render loop runs.  (The model assumes the `VideoWriter` opens.) -/
def create_slideshow (imgs : Catalog) (resolution : Option (Nat × Nat))
    (F C : Nat) : SlideOutcome :=
  match imgs with
  | [] => SlideOutcome.fail 0 SlideMsg.noImagesFound
  | first :: _ =>
    match first with
    | none => SlideOutcome.fail 0 SlideMsg.errorDuringGeneration
    | some firstImg =>
      let t := resolution.getD firstImg
      SlideOutcome.ok (emittedFrames imgs t.1 t.2 F C) (finalCounter imgs F C)

/-- What ends up saved at `output_path` after the encode stage. -/
inductive SavedArtifact where
  | finalEncoded
  | rawVideo
  | nothingSaved
deriving DecidableEq, Repr

/-- The `(success, message)` pair delivered to `on_done`. -/
structure DoneReport where
  success : Bool
  message : String
deriving DecidableEq, Repr

/-- Embedding of the encode-and-save tail of `create_slideshow_thread`
(lines 230-278).  `encodeOk` is the outcome of the `run_ffmpeg` call (with or
without background music — both branches feed the same fallback);
`moveRawOk` the outcome of `shutil.move(raw_video, output_path)`;
`moveFinalOk` and `copyFinalOk` the move/copy of the encoded file.  `ffErr`,
`moveRawErr` and `copyFinalErr` are the corresponding diagnostic strings. -/
def finalizeOutput (encodeOk moveRawOk moveFinalOk copyFinalOk : Bool)
    (ffErr moveRawErr copyFinalErr outputPath : String) :
    SavedArtifact × DoneReport :=
  if encodeOk then
    if moveFinalOk then
      (SavedArtifact.finalEncoded, ⟨true, "Video saved: " ++ outputPath⟩)
    else if copyFinalOk then
      (SavedArtifact.finalEncoded, ⟨true, "Video saved: " ++ outputPath⟩)
    else
      (SavedArtifact.nothingSaved,
        ⟨false, "Failed to save final video to destination: " ++ copyFinalErr⟩)
  else
    if moveRawOk then
      (SavedArtifact.rawVideo,
        ⟨true, "Saved raw video (ffmpeg failed). Video at: " ++ outputPath
          ++ "\nffmpeg error:\n" ++ ffErr⟩)
    else
      (SavedArtifact.nothingSaved,
        ⟨false, "ffmpeg failed and fallback save failed:\n" ++ ffErr
          ++ "\n" ++ moveRawErr⟩)

end ImageVideoMaker

namespace PortraitPro

/-- Semantics of the letterbox filter built by `build_letterbox_vf`
(portrait_to_landscape_pro_rewrite.py lines 154-159):
`scale=min(W,iw):-2` sets the scaled width to `min(W, iw)` and lets the
scaled height follow the source aspect ratio (ffmpeg's `-2` placeholder;
modelled exactly as the rational `ih * scaledW / iw`, ignoring ffmpeg's
rounding to an even integer), and `pad=W:H:(ow-iw)/2:(oh-ih)/2:color`
requests a `W × H` padded canvas.  Returns `((scaledW, scaledH), (padW,
padH))`. -/
def letterboxFilter (W H iw ih : Nat) : (Nat × ℚ) × (Nat × Nat) :=
  ((min W iw, (ih : ℚ) * ((min W iw : Nat) : ℚ) / (iw : ℚ)), (W, H))

/-- The pad color argument: `build_letterbox_vf` rewrites a leading `#` of
the caller's hex color to `0x` (lines 155-157). -/
def letterboxColorArg (hexcolor : String) : String :=
  if hexcolor.startsWith "#" then "0x" ++ hexcolor.drop 1 else hexcolor

/-- One ffmpeg/copy action of the audio stage of `_worker_convert`
(lines 549-589), identified by its distinguishing arguments. -/
inductive AudioCmd where
  /-- `amix` of the original audio at volume `origVol` and the background
  track at volume `bgmVol` (lines 557-566); `loopBgm` records
  `-stream_loop -1`, `shortest` records the `-shortest` flag. -/
  | amixCmd (origVol bgmVol : ℚ) (loopBgm shortest : Bool)
  /-- Fallback: replace the audio with the background track alone
  (lines 573-577); `shortest` records the `-shortest` flag. -/
  | bgmReplaceCmd (shortest : Bool)
  /-- Last resort: `shutil.copy(tmp_video, outpath)` (line 582). -/
  | copyVideoOnly
deriving DecidableEq, Repr

/-- The background-music branch of step B of `_worker_convert`
(lines 549-582): run the `amix` command; on failure run the bgm-only
replacement; on failure again copy the silent video-only artifact.  Returns
the list of commands attempted (in order) and the one that produced the
output file.  `mixOk` and `replaceOk` are the success outcomes of the first
two stages (the final copy cannot fail in this model). -/
def audioCascade (mixOk replaceOk : Bool) (vol : ℚ) (trim loopBgm : Bool) :
    List AudioCmd × AudioCmd :=
  let mix := AudioCmd.amixCmd 1 vol loopBgm (!loopBgm && trim)
  if mixOk then ([mix], mix)
  else
    let fb := AudioCmd.bgmReplaceCmd trim
    if replaceOk then ([mix, fb], fb)
    else ([mix, fb, AudioCmd.copyVideoOnly], AudioCmd.copyVideoOnly)

/-- Observable events of the conversion worker `_worker_convert`
(lines 483-612), in program order. -/
inductive WEvent where
  /-- Read of `self.stop_flag` at the top of the per-entry loop (line 487),
  recording the value observed. -/
  | poll (observed : Bool)
  /-- The log line `Stopped by user.` (line 488). -/
  | stopLog
  /-- Step A: the video-only render of entry `i` (lines 513-546). -/
  | stageVideo (i : Nat)
  /-- Step B: the audio mux / encode cascade of entry `i` (lines 548-589). -/
  | stageAudio (i : Nat)
  /-- The `finally` block removing entry `i`'s temporary directory
  (lines 598-602). -/
  | rmTmp (i : Nat)
  /-- The `Saved: ...` log after entry `i` completes (line 607). -/
  | saveLog (i : Nat)
deriving DecidableEq, Repr

/-- The events of one entry's body: the code never reads `stop_flag` between
step A and step B — a started entry runs both stages, removes its temp
directory, and logs the save. -/
def entryEvents (i : Nat) : List WEvent :=
  [WEvent.stageVideo i, WEvent.stageAudio i, WEvent.rmTmp i, WEvent.saveLog i]

/-- The per-entry loop of `_worker_convert` (lines 486-607).  `flag t` is the
value the shared `stop_flag` would show at global step `t` (the GUI thread
may set it at any time); the worker reads it only at the top-of-loop poll.
On observing `true` it logs `Stopped by user.` and breaks; otherwise the
whole entry body runs without further polls. -/
def runEntries (flag : Nat → Bool) : List Nat → Nat → List WEvent
  | [], _ => []
  | i :: rest, t =>
    if flag t then [WEvent.poll true, WEvent.stopLog]
    else
      WEvent.poll false :: entryEvents i
        ++ runEntries flag rest (t + 1 + (entryEvents i).length)

/-- The completion report of `_worker_convert` (lines 609-612): the status
label is set to `Done` and the dialog shows `Finished done/total` — on every
exit of the loop, stopped or not. -/
structure WorkerReport where
  status : String
  doneCount : Nat
  total : Nat
deriving DecidableEq, Repr

/-- A full worker run over `n` entries starting with the flag history
`flag`: the event trace and the completion report (`done` counts the entries
that reached the `Saved:` log). -/
def workerRun (flag : Nat → Bool) (n : Nat) : List WEvent × WorkerReport :=
  let evs := runEntries flag (List.range n) 0
  (evs, ⟨"Done", evs.countP (fun e => match e with | WEvent.saveLog _ => true | _ => false), n⟩)

/-- A stop-flag history that becomes (and stays) set at global step 1 —
i.e. immediately after the first poll, while entry 0's video render stage is
executing. -/
def flagFromStep1 : Nat → Bool := fun t => decide (1 ≤ t)

end PortraitPro

/-! ## Helper lemmas -/

namespace ImageVideoMaker

lemma sum_map_const_eq {α : Type} (l : List α) (c : Nat) :
    (l.map (fun _ => c)).sum = l.length * c := by
  induction l with
  | nil => simp
  | cons a tl ih => simp [ih, Nat.succ_mul, Nat.add_comm]

lemma sum_map_ite_eq {α : Type} (l : List α) (p : α → Bool) (c : Nat) :
    (l.map (fun a => if p a then c else 0)).sum = c * l.countP p := by
  induction l with
  | nil => simp
  | cons a tl ih =>
    cases hp : p a <;>
      simp [hp, ih, List.countP_cons, Nat.mul_add] <;> omega

lemma stableCount_add_of_le {F C : Nat} (h : C ≤ F) : stableCount F C + C = F := by
  unfold stableCount stable_framesI
  have hnn : ¬ ((F : ℤ) - (C : ℤ) < 0) := by omega
  rw [if_neg hnn]
  omega

lemma renderItem_length_of_le {F C : Nat} (h : C ≤ F) (imgs : Catalog)
    (tw th idx : Nat) :
    (renderItem imgs tw th F C idx).length = if isReadable imgs idx then F else 0 := by
  unfold renderItem isReadable
  cases hg : imgs.get? idx with
  | none => simp
  | some o =>
    cases o with
    | none => simp
    | some img => simp [stableCount_add_of_le h]

/-! ## Claim theorems for the slideshow renderer -/

/-- C1: for a catalog of `N` items with `framesPerItem = F` and
`crossfadeFrames = C ≤ F`, the render loop's frame counter finishes at
exactly `N × F`, independent of how many items failed to decode: every
successfully decoded item contributes exactly `F` emitted frames, while an
unreadable item contributes no emitted frames at all but still advances the
counter by `F`. -/
theorem render_frame_budget (imgs : Catalog) (tw th F C : Nat) (h : C ≤ F) :
    finalCounter imgs F C = imgs.length * F ∧
    (emittedFrames imgs tw th F C).length = readableCount imgs * F ∧
    (∀ idx, imgs.get? idx = some none →
      renderItem imgs tw th F C idx = [] ∧ counterAdvance imgs F C idx = F) := by
  have hca : ∀ idx, counterAdvance imgs F C idx = F := by
    intro idx
    unfold counterAdvance
    cases hg : imgs.get? idx with
    | none => simp
    | some o =>
      cases o with
      | none => simp
      | some img => simp [stableCount_add_of_le h]
  refine ⟨?_, ?_, ?_⟩
  · unfold finalCounter
    rw [List.map_congr_left (fun i _ => hca i), sum_map_const_eq, List.length_range]
  · unfold emittedFrames readableCount
    rw [List.length_flatten, List.map_map]
    have : ((List.range imgs.length).map
        (fun i => (renderItem imgs tw th F C i).length)).sum
        = ((List.range imgs.length).map
            (fun i => if isReadable imgs i then F else 0)).sum := by
      exact congrArg List.sum
        (List.map_congr_left (fun i _ => renderItem_length_of_le h imgs tw th i))
    rw [show (List.length ∘ renderItem imgs tw th F C)
        = fun i => (renderItem imgs tw th F C i).length from rfl, this,
      sum_map_ite_eq, Nat.mul_comm]
  · intro idx hidx
    constructor
    · unfold renderItem
      rw [hidx]
    · unfold counterAdvance
      rw [hidx]

/-- C1 witness: a three-item catalog whose middle item failed to decode,
`F = 3`, `C = 1`: the counter finishes at `9 = 3 × 3`, the emitted frames
number `6 = 2 × 3`, and the unreadable item emits nothing while advancing
the counter by `3`. -/
theorem render_frame_budget_witness :
    (1 : Nat) ≤ 3 ∧
    (finalCounter [some (4, 3), none, some (2, 2)] 3 1 = 3 * 3 ∧
      (emittedFrames [some (4, 3), none, some (2, 2)] 2 2 3 1).length
        = readableCount [some (4, 3), none, some (2, 2)] * 3 ∧
      (∀ idx, ([some (4, 3), none, some (2, 2)] : Catalog).get? idx = some none →
        renderItem [some (4, 3), none, some (2, 2)] 2 2 3 1 idx = [] ∧
        counterAdvance [some (4, 3), none, some (2, 2)] 3 1 idx = 3)) :=
  ⟨by decide, render_frame_budget [some (4, 3), none, some (2, 2)] 2 2 3 1 (by decide)⟩

/-- C6: when `crossfadeFrames > framesPerItem`, the stable-frame count is
clamped to zero (never negative for any inputs), and each item's loops write
a non-negative number of frames — exactly `C` for a decoded item, `0` for an
unreadable one — with no rejection or crash. -/
theorem crossfade_exceeding_clamps (F C : Nat) (h : F < C) :
    stable_framesI F C = 0 ∧
    (∀ F' C' : Nat, 0 ≤ stable_framesI F' C') ∧
    (∀ (imgs : Catalog) (tw th idx : Nat),
      (renderItem imgs tw th F C idx).length
        = if isReadable imgs idx then C else 0) := by
  have hz : stable_framesI F C = 0 := by
    unfold stable_framesI
    rw [if_pos (by omega)]
  refine ⟨hz, ?_, ?_⟩
  · intro F' C'
    unfold stable_framesI
    split <;> omega
  · intro imgs tw th idx
    unfold renderItem isReadable
    cases hg : imgs.get? idx with
    | none => simp
    | some o =>
      cases o with
      | none => simp
      | some img => simp [stableCount, hz]

/-- C6 witness: `F = 2`, `C = 5`. -/
theorem crossfade_exceeding_clamps_witness :
    (2 : Nat) < 5 ∧
    (stable_framesI 2 5 = 0 ∧
      (∀ F' C' : Nat, 0 ≤ stable_framesI F' C') ∧
      (∀ (imgs : Catalog) (tw th idx : Nat),
        (renderItem imgs tw th 2 5 idx).length
          = if isReadable imgs idx then 5 else 0)) :=
  ⟨by decide, crossfade_exceeding_clamps 2 5 (by decide)⟩

/-- C9: if item `idx` has a following item that failed to decode, its
crossfade blends toward the solid black frame of the target dimensions —
the same buffer the terminal item fades toward — and never toward any later
item's frame. -/
theorem fade_to_black_on_unreadable_next (imgs : Catalog) (tw th idx : Nat)
    (h : imgs.get? (idx + 1) = some none) :
    nextFrameBuf imgs tw th idx = FrameBuf.black tw th ∧
    (∀ j, imgs.get? (j + 1) = none → nextFrameBuf imgs tw th j = FrameBuf.black tw th) ∧
    (∀ k w2 h2, nextFrameBuf imgs tw th idx ≠ FrameBuf.itemFrame k w2 h2) := by
  refine ⟨?_, ?_, ?_⟩
  · unfold nextFrameBuf
    rw [h]
  · intro j hj
    unfold nextFrameBuf
    rw [hj]
  · intro k w2 h2
    unfold nextFrameBuf
    rw [h]
    exact fun hne => FrameBuf.noConfusion hne

/-- C9 witness: a two-item catalog whose second item failed to decode. -/
theorem fade_to_black_on_unreadable_next_witness :
    ([some (1, 1), none] : Catalog).get? (0 + 1) = some none ∧
    (nextFrameBuf [some (1, 1), none] 3 2 0 = FrameBuf.black 3 2 ∧
      (∀ j, ([some (1, 1), none] : Catalog).get? (j + 1) = none →
        nextFrameBuf [some (1, 1), none] 3 2 j = FrameBuf.black 3 2) ∧
      (∀ k w2 h2, nextFrameBuf [some (1, 1), none] 3 2 0 ≠ FrameBuf.itemFrame k w2 h2)) :=
  ⟨by decide, fade_to_black_on_unreadable_next [some (1, 1), none] 3 2 0 (by decide)⟩

/-- C10: whenever the first catalog item cannot be decoded, the whole job
fails through `on_done(False, ...)` with zero frames emitted — for every
resolution setting, fixed presets included, because the first image is
opened unconditionally to resolve the target resolution; by contrast any
catalog whose first item decodes renders to completion (later unreadable
items are merely skipped). -/
theorem first_item_unreadable_fails (imgs : Catalog) (res : Option (Nat × Nat))
    (F C : Nat) (h : imgs.head? = some none) :
    create_slideshow imgs res F C = SlideOutcome.fail 0 SlideMsg.errorDuringGeneration ∧
    (∀ (fw fh : Nat) (tl : Catalog), ∃ es n,
      create_slideshow (some (fw, fh) :: tl) res F C = SlideOutcome.ok es n) := by
  constructor
  · cases imgs with
    | nil => simp at h
    | cons first rest =>
      have hf : first = none := by
        simpa using h
      subst hf
      rfl
  · intro fw fh tl
    exact ⟨_, _, rfl⟩

/-- C10 witness: a catalog whose first item is unreadable, with a fixed
`1280×720` preset. -/
theorem first_item_unreadable_fails_witness :
    ([none, some (5, 5)] : Catalog).head? = some none ∧
    (create_slideshow [none, some (5, 5)] (some (1280, 720)) 2 1
        = SlideOutcome.fail 0 SlideMsg.errorDuringGeneration ∧
      (∀ (fw fh : Nat) (tl : Catalog), ∃ es n,
        create_slideshow (some (fw, fh) :: tl) (some (1280, 720)) 2 1
          = SlideOutcome.ok es n)) :=
  ⟨by decide, first_item_unreadable_fails [none, some (5, 5)] (some (1280, 720)) 2 1 (by decide)⟩

end ImageVideoMaker

namespace ImageVideoMaker

/-! ## Claim theorems for the frame compositor -/

/-- C3 counterexample: the code's blend truncates instead of rounding.  At
crossfade frame `f = 1` of `C = 3` the factor is `alpha = 2/3`; blending
pixel values `A = 0` toward `B = 1` the code produces `0`, while the spec's
`round(A*(1-alpha) + B*alpha)` is `1`. -/
theorem blend_truncates_not_rounds :
    blendPixel 0 1 (crossfadeAlpha 3 1) = 0 ∧
    roundBlendSpec 0 1 (crossfadeAlpha 3 1) = 1 ∧
    blendPixel 0 1 (crossfadeAlpha 3 1) ≠ roundBlendSpec 0 1 (crossfadeAlpha 3 1) := by
  have h1 : blendPixel 0 1 (crossfadeAlpha 3 1) = 0 := by
    unfold blendPixel crossfadeAlpha
    norm_num
  have h2 : roundBlendSpec 0 1 (crossfadeAlpha 3 1) = 1 := by
    unfold roundBlendSpec crossfadeAlpha
    norm_num [round_eq]
  refine ⟨h1, h2, ?_⟩
  rw [h1, h2]
  decide

/-- C3 amended: the cross-fade blend computes the per-pixel convex
combination in a higher-precision exact intermediate and narrows to the
8-bit type by truncation toward zero (floor) — so it never exceeds the
spec's rounded value and falls short of it by at most one — and at
`alpha = 0` it reproduces pixel `A` exactly, at `alpha = 1` pixel `B`
exactly. -/
theorem blend_floor_bounds (a b : Nat) :
    blendPixel a b 0 = a ∧ blendPixel a b 1 = b ∧
    (∀ alpha : ℚ, 0 ≤ alpha → alpha ≤ 1 →
      (blendPixel a b alpha : ℤ) ≤ (roundBlendSpec a b alpha : ℤ) ∧
      (roundBlendSpec a b alpha : ℤ) ≤ (blendPixel a b alpha : ℤ) + 1) := by
  refine ⟨?_, ?_, ?_⟩
  · unfold blendPixel
    simp
  · unfold blendPixel
    simp
  · intro alpha h0 h1
    unfold blendPixel roundBlendSpec
    set v : ℚ := (a : ℚ) * (1 - alpha) + (b : ℚ) * alpha with hv
    have hvnn : 0 ≤ v := by
      have ha : (0 : ℚ) ≤ (a : ℚ) * (1 - alpha) :=
        mul_nonneg (Nat.cast_nonneg a) (by linarith)
      have hb : (0 : ℚ) ≤ (b : ℚ) * alpha :=
        mul_nonneg (Nat.cast_nonneg b) h0
      linarith
    have hfloor : ((⌊v⌋₊ : ℕ) : ℤ) = ⌊v⌋ := Int.natCast_floor_eq_floor hvnn
    have hrnn : 0 ≤ round v := by
      rw [round_eq]
      exact Int.floor_nonneg.mpr (by linarith)
    have hround : (((round v).toNat : ℕ) : ℤ) = round v := Int.toNat_of_nonneg hrnn
    have hlow : ⌊v⌋ ≤ round v := by
      rw [round_eq]
      exact Int.floor_le_floor (by linarith)
    have hhigh : round v ≤ ⌊v⌋ + 1 := by
      rw [round_eq]
      have h2 : (⌊v + (1 : ℚ)⌋ : ℤ) = ⌊v⌋ + 1 := by
        exact_mod_cast Int.floor_add_int v 1
      calc ⌊v + 1 / 2⌋ ≤ ⌊v + (1 : ℚ)⌋ := Int.floor_le_floor (by linarith)
        _ = ⌊v⌋ + 1 := h2
    rw [hfloor, hround]
    exact ⟨hlow, hhigh⟩

/-- C3 amended witness: endpoints at `(A, B) = (5, 9)` and the floor/round
bracket at `alpha = 1/2`. -/
theorem blend_floor_bounds_witness :
    blendPixel 5 9 0 = 5 ∧
    (blendPixel 5 9 (1 / 2) : ℤ) ≤ (roundBlendSpec 5 9 (1 / 2) : ℤ) :=
  ⟨(blend_floor_bounds 5 9).1,
    ((blend_floor_bounds 5 9).2.2 (1 / 2) (by norm_num) (by norm_num)).1⟩

/-- C4: for positive source and target dimensions, the zoom-crop fit resizes
to exactly `(targetW, targetH)` with the non-nearest LANCZOS filter, and the
crop follows the stated algorithm: when the source aspect exceeds the target
aspect (`tw * ih < iw * th`), full source height is kept, the width is
`sourceHeight × targetAspect` (floored) centered horizontally with vertical
offset zero; otherwise full source width is kept and the height is
`sourceWidth / targetAspect` (floored) centered vertically. -/
theorem zoom_crop_fit (iw ih tw th : Nat)
    (hiw : 0 < iw) (hih : 0 < ih) (htw : 0 < tw) (hth : 0 < th) :
    (zoom_crop_and_resize iw ih tw th).2.1 = (tw, th) ∧
    (zoom_crop_and_resize iw ih tw th).2.2 = Resample.lanczos ∧
    Resample.lanczos ≠ Resample.nearest ∧
    (tw * ih < iw * th →
      (zoom_crop_and_resize iw ih tw th).1 =
        ⟨(iw - ih * tw / th) / 2, 0, ih * tw / th, ih⟩) ∧
    (¬ tw * ih < iw * th →
      (zoom_crop_and_resize iw ih tw th).1 =
        ⟨0, (ih - iw * th / tw) / 2, iw, iw * th / tw⟩) := by
  have hthq : (0 : ℚ) < (th : ℚ) := by exact_mod_cast hth
  have hihq : (0 : ℚ) < (ih : ℚ) := by exact_mod_cast hih
  have htwq : (0 : ℚ) < (tw : ℚ) := by exact_mod_cast htw
  have hcond : ((tw : ℚ) / (th : ℚ) < (iw : ℚ) / (ih : ℚ)) ↔ tw * ih < iw * th := by
    rw [div_lt_div_iff₀ hthq hihq]
    exact_mod_cast Iff.rfl
  have hflw : ⌊(ih : ℚ) * ((tw : ℚ) / (th : ℚ))⌋₊ = ih * tw / th := by
    rw [show (ih : ℚ) * ((tw : ℚ) / (th : ℚ)) = ((ih * tw : ℕ) : ℚ) / ((th : ℕ) : ℚ) by
      push_cast; ring]
    exact Nat.floor_div_eq_div (ih * tw) th
  have hflh : ⌊(iw : ℚ) / ((tw : ℚ) / (th : ℚ))⌋₊ = iw * th / tw := by
    rw [show (iw : ℚ) / ((tw : ℚ) / (th : ℚ)) = ((iw * th : ℕ) : ℚ) / ((tw : ℕ) : ℚ) by
      field_simp]
    exact Nat.floor_div_eq_div (iw * th) tw
  simp only [zoom_crop_and_resize]
  split_ifs with hc
  · refine ⟨rfl, rfl, fun hne => Resample.noConfusion hne, fun _ => ?_, fun hno => ?_⟩
    · simp only [hflw]
    · exact absurd (hcond.mp hc) hno
  · refine ⟨rfl, rfl, fun hne => Resample.noConfusion hne, fun hyes => ?_, fun _ => ?_⟩
    · exact absurd hyes (fun hlt => hc (hcond.mpr hlt))
    · simp only [hflh]

/-- C4 witness: a wide `200×100` source fit to a square `100×100` target
(crop keeps full height, width `100`, centered at `left = 50`), and the
instantiated statement. -/
theorem zoom_crop_fit_witness :
    (0 : Nat) < 200 ∧
    ((zoom_crop_and_resize 200 100 100 100).2.1 = (100, 100) ∧
      (zoom_crop_and_resize 200 100 100 100).2.2 = Resample.lanczos ∧
      Resample.lanczos ≠ Resample.nearest ∧
      (100 * 100 < 200 * 100 →
        (zoom_crop_and_resize 200 100 100 100).1 =
          ⟨(200 - 100 * 100 / 100) / 2, 0, 100 * 100 / 100, 100⟩) ∧
      (¬ 100 * 100 < 200 * 100 →
        (zoom_crop_and_resize 200 100 100 100).1 =
          ⟨0, (100 - 200 * 100 / 100) / 2, 200, 200 * 100 / 100⟩)) :=
  ⟨by decide, zoom_crop_fit 200 100 100 100 (by decide) (by decide) (by decide) (by decide)⟩

/-! ## Claim theorem for the slideshow encode fallback -/

/-- C2: when the final re-encode fails (`encodeOk = false`), the orchestrator
moves the untouched raw artifact to the requested output path and reports
success-with-a-warning message; only when that move also fails does it
report a fatal failure whose message concatenates both diagnostics. -/
theorem encode_failure_moves_raw (mF cF : Bool) (e e2 ce out : String) :
    finalizeOutput false true mF cF e e2 ce out =
      (SavedArtifact.rawVideo,
        ⟨true, "Saved raw video (ffmpeg failed). Video at: " ++ out
          ++ "\nffmpeg error:\n" ++ e⟩) ∧
    finalizeOutput false false mF cF e e2 ce out =
      (SavedArtifact.nothingSaved,
        ⟨false, "ffmpeg failed and fallback save failed:\n" ++ e ++ "\n" ++ e2⟩) := by
  constructor <;> rfl

end ImageVideoMaker

namespace PortraitPro

/-! ## Claim theorems for the portrait-conversion path -/

/-- C5: with background music supplied, the audio handling is the ordered
cascade: first an additive mix of the original audio at unit volume with the
background track at the configured volume; on failure, the audio is replaced
with the background track alone (`-shortest` iff trim was requested); on
failure again, the silent video-only artifact is copied to the output; and a
successful stage stops the cascade (nothing later is attempted). -/
theorem bgm_cascade_order (r : Bool) (vol : ℚ) (trim loopBgm : Bool) :
    audioCascade true r vol trim loopBgm =
      ([AudioCmd.amixCmd 1 vol loopBgm (!loopBgm && trim)],
        AudioCmd.amixCmd 1 vol loopBgm (!loopBgm && trim)) ∧
    audioCascade false true vol trim loopBgm =
      ([AudioCmd.amixCmd 1 vol loopBgm (!loopBgm && trim),
        AudioCmd.bgmReplaceCmd trim], AudioCmd.bgmReplaceCmd trim) ∧
    audioCascade false false vol trim loopBgm =
      ([AudioCmd.amixCmd 1 vol loopBgm (!loopBgm && trim),
        AudioCmd.bgmReplaceCmd trim, AudioCmd.copyVideoOnly],
        AudioCmd.copyVideoOnly) := by
  refine ⟨rfl, rfl, rfl⟩

/-- C7 evaluation at the failing input: for a portrait `1080×1920` source
letterboxed to a `1920×1080` target, the filter built by
`build_letterbox_vf` scales to width `min(1920, 1080) = 1080` but leaves the
aspect-preserved height at `1920`, which exceeds the `1080` pad bound — the
scaled frame is *not* within the target bounds, so the `pad` to `1920×1080`
cannot contain it. -/
theorem letterbox_height_unbounded :
    (letterboxFilter 1920 1080 1080 1920).1.1 = 1080 ∧
    (letterboxFilter 1920 1080 1080 1920).1.2 = (1920 : ℚ) ∧
    (letterboxFilter 1920 1080 1080 1920).2 = (1920, 1080) ∧
    ¬ ((letterboxFilter 1920 1080 1080 1920).1.2 ≤ ((1080 : Nat) : ℚ)) := by
  unfold letterboxFilter
  norm_num

/-- C8 counterexample: with two entries and the stop flag set from global
step 1 — immediately after the first poll, before entry 0's encode stages —
the worker still executes entry 0's audio/encode stage (no poll happens
between encode-cascade stages), and the completion status it reports equals
the status of a fully successful run (`Done` in both cases): the completion
report does not distinguish "stopped by request" from success. -/
theorem stop_mid_entry_not_distinguished :
    flagFromStep1 1 = true ∧
    WEvent.stageAudio 0 ∈ (workerRun flagFromStep1 2).1 ∧
    WEvent.stopLog ∈ (workerRun flagFromStep1 2).1 ∧
    (workerRun flagFromStep1 2).2.status = (workerRun (fun _ => false) 2).2.status := by
  refine ⟨rfl, by decide, by decide, rfl⟩

lemma stopLog_not_in_entryEvents (i : Nat) : WEvent.stopLog ∉ entryEvents i := by
  simp [entryEvents]

lemma runEntries_stop_suffix (flag : Nat → Bool) (idxs : List Nat) (t : Nat)
    (h : WEvent.stopLog ∈ runEntries flag idxs t) :
    ∃ pre, runEntries flag idxs t = pre ++ [WEvent.poll true, WEvent.stopLog] := by
  induction idxs generalizing t with
  | nil => simp [runEntries] at h
  | cons i rest ih =>
    rw [runEntries] at h ⊢
    by_cases hf : flag t
    · rw [if_pos hf]
      exact ⟨[], rfl⟩
    · rw [if_neg hf] at h ⊢
      have hmem : WEvent.stopLog ∈ runEntries flag rest (t + 1 + (entryEvents i).length) := by
        rcases List.mem_cons.mp h with h1 | h2
        · exact absurd h1 (by simp)
        · rcases List.mem_append.mp h2 with h3 | h4
          · exact absurd h3 (stopLog_not_in_entryEvents i)
          · exact h4
      rcases ih _ hmem with ⟨pre, hpre⟩
      refine ⟨WEvent.poll false :: entryEvents i ++ pre, ?_⟩
      rw [hpre]
      simp

lemma runEntries_entry_complete (flag : Nat → Bool) (idxs : List Nat) (t i : Nat)
    (h : WEvent.stageVideo i ∈ runEntries flag idxs t) :
    WEvent.stageAudio i ∈ runEntries flag idxs t ∧
    WEvent.rmTmp i ∈ runEntries flag idxs t := by
  induction idxs generalizing t with
  | nil => simp [runEntries] at h
  | cons j rest ih =>
    rw [runEntries] at h ⊢
    by_cases hf : flag t
    · rw [if_pos hf] at h
      simp at h
    · rw [if_neg hf] at h ⊢
      rcases List.mem_cons.mp h with h1 | h2
      · exact absurd h1 (by simp)
      · rcases List.mem_append.mp h2 with h3 | h4
        · have hij : i = j := by
            simpa [entryEvents] using h3
          subst hij
          constructor
          · exact List.mem_cons_of_mem _ (List.mem_append_left _ (by simp [entryEvents]))
          · exact List.mem_cons_of_mem _ (List.mem_append_left _ (by simp [entryEvents]))
        · rcases ih _ h4 with ⟨ha, hr⟩
          exact ⟨List.mem_cons_of_mem _ (List.mem_append_right _ ha),
            List.mem_cons_of_mem _ (List.mem_append_right _ hr)⟩

/-- C8 amended: cancellation is cooperative but coarse-grained.  The stop
flag is read only at the one poll at the top of the per-entry loop: an entry
whose video stage has started always runs its audio/encode stage and removes
its temporary directory (no poll between stages); once a poll observes the
flag, the trace ends right there (a `Stopped by user.` log and nothing
further is emitted); and the completion report carries the status `Done`
regardless — stopping is visible in the log and the incomplete done-count,
not as a distinct completion outcome. -/
theorem cooperative_stop_coarse (flag : Nat → Bool) (n : Nat) :
    (workerRun flag n).2.status = "Done" ∧
    (∀ i, WEvent.stageVideo i ∈ (workerRun flag n).1 →
      WEvent.stageAudio i ∈ (workerRun flag n).1 ∧
      WEvent.rmTmp i ∈ (workerRun flag n).1) ∧
    (WEvent.stopLog ∈ (workerRun flag n).1 →
      ∃ pre, (workerRun flag n).1 = pre ++ [WEvent.poll true, WEvent.stopLog]) := by
  refine ⟨rfl, ?_, ?_⟩
  · intro i hi
    exact runEntries_entry_complete flag (List.range n) 0 i hi
  · intro hs
    exact runEntries_stop_suffix flag (List.range n) 0 hs

/-- C8 amended witness: the stopped two-entry run reports status `Done` and
its trace ends at the observed poll. -/
theorem cooperative_stop_coarse_witness :
    (workerRun flagFromStep1 2).2.status = "Done" ∧
    (∃ pre, (workerRun flagFromStep1 2).1 = pre ++ [WEvent.poll true, WEvent.stopLog]) :=
  ⟨(cooperative_stop_coarse flagFromStep1 2).1,
    (cooperative_stop_coarse flagFromStep1 2).2.2 (by decide)⟩

end PortraitPro
